import Mathlib

/-!
Shallow embedding of `src/main.rs` of sio2prom: a telemetry bridge whose core
is a dynamic metrics registry (`load_prom` / `updata_metrics`), a collection
scheduler (`scheduler`), a startup sequence (`main`) and an HTTP exposition
handler (the closure inside `start_exporter`).

Modelling conventions:
* Rust `HashMap` / the label maps are modelled as association lists with
  lookup/update by key; `BTreeMap` iteration order is the order of the list.
* `f64` metric values are modelled as exact integers (`Int`): all the claims
  are about routing and increment-versus-set semantics, not rounding.
* `String::to_lowercase` is modelled character-wise (`Char.toLower` over the
  character data), and Rust's `str` ordering (`cmp`) as lexicographic
  comparison of code points.
* The prometheus client library's registration contract (registering a
  collector under an already-taken fully-qualified name fails with
  `AlreadyReg`, and `get_metric_with` fails when the supplied label map does
  not match the family's variable-label set) is part of the environment and
  is embedded explicitly in `loadPromOne` / `resolveLabels`.
* Logging (`error!`/`info!` calls) is modelled as emitted `LogEvent`s.
-/

namespace SioProm

/-- Association-list lookup by key (model of `HashMap::get` / map lookup). -/
def lookupA {κ α : Type} [DecidableEq κ] (k : κ) : List (κ × α) → Option α
  | [] => none
  | (k', v) :: t => if k' = k then some v else lookupA k t

/-- Association-list insert-or-overwrite (model of `HashMap::insert`). -/
def updateA {κ α : Type} [DecidableEq κ] : List (κ × α) → κ → α → List (κ × α)
  | [], k, v => [(k, v)]
  | (k', v') :: t, k, v => if k' = k then (k, v) :: t else (k', v') :: updateA t k v

/-- Model of Rust `String::to_lowercase` (character-wise; the kind strings
involved are ASCII). -/
def lowercase (s : String) : String := ⟨s.data.map Char.toLower⟩

/-- Lexicographic code-point comparison of character lists, the order behind
Rust's `str::cmp`. -/
def charsLe : List Char → List Char → Bool
  | [], _ => true
  | _ :: _, [] => false
  | a :: as, b :: bs =>
      if a.toNat < b.toNat then true
      else if b.toNat < a.toNat then false
      else charsLe as bs

/-- Rust `str::cmp`-induced `≤` on strings. -/
def strLe (a b : String) : Bool := charsLe a.data b.data

/-- The comparison `|v1, v2| v1.1.cmp(v2.1)` of `load_prom` line 119: label
entries `(name, value)` ordered by their label *value*. -/
def valLe (x y : String × String) : Prop := strLe x.2 y.2 = true

instance : DecidableRel valLe := fun x y => inferInstanceAs (Decidable (_ = true))

/-- Modelled from the spec: the `sio::metrics::Metric` measurement record
(module `sio` is not part of the inspected sources) — a
`(name, kind, help, label-map, numeric value)` tuple, the label map having
unique keys.  The kind is kept as the raw string `mtype`, as in the source. -/
structure Metric where
  name : String
  mtype : String
  help : String
  labels : List (String × String)
  value : Int
deriving DecidableEq, Repr

/-- One registered metric family (`CounterVec` / `GaugeVec`): the fixed
variable-label-name list chosen at registration time and the lazily created
series, keyed by the label values in label-name order. -/
structure MetricVec where
  labelNames : List String
  series : List (List String × Int)
deriving DecidableEq, Repr

/-- The registry state behind `METRIC_COUNTERS`, `METRIC_GAUGES` and the
prometheus default registry: name-keyed counter and gauge family maps, plus
the set of fully-qualified names already taken in the default registry
(registration under a taken name fails with `AlreadyReg`). -/
structure Registry where
  counters : List (String × MetricVec)
  gauges : List (String × MetricVec)
  promNames : List String
deriving DecidableEq, Repr

def Registry.empty : Registry := ⟨[], [], []⟩

/-- The log/error events the embedded operations emit. -/
inductive LogEvent
  | notRegistered (name mtype : String)
  | labelMismatch (name mtype : String)
  | unknownType (name mtype : String)
  | registerError (name : String)
  | skipCycle
  | encoderProblem (e : String)
  | sendError (e : String)
deriving DecidableEq, Repr

/-- `get_metric_with(&labels)` of the prometheus client: succeeds iff the
supplied label map has exactly the family's variable labels (same count, every
label name present), and then yields the label values in label-name order. -/
def resolveLabels (names : List String) (labels : List (String × String)) :
    Option (List String) :=
  if labels.length = names.length then go names labels else none
where
  go : List String → List (String × String) → Option (List String)
    | [], _ => some []
    | n :: t, labels =>
        match lookupA n labels, go t labels with
        | some v, some vs => some (v :: vs)
        | _, _ => none

/-- Counter series update: lazily created at `0`, then `inc_by(value)`. -/
def incSeries (s : List (List String × Int)) (k : List String) (v : Int) :
    List (List String × Int) :=
  updateA s k ((lookupA k s).getD 0 + v)

/-- Gauge series update: lazily created, then `set(value)`. -/
def setSeries (s : List (List String × Int)) (k : List String) (v : Int) :
    List (List String × Int) :=
  updateA s k v

/-- One iteration of the `for m in metrics` loop of `updata_metrics`
(src/main.rs lines 158–209): dispatch on the lowercased kind, look the family
up by name (absent → "not found as registered" error, continue), resolve the
series by the measurement's full label map (mismatch → "not found in
MetricFamily" error, continue), then increment (counter) or set (gauge). -/
def applyOne (reg : Registry) (m : Metric) : Registry × List LogEvent :=
  if lowercase m.mtype = "counter" then
    match lookupA m.name reg.counters with
    | none => (reg, [.notRegistered m.name m.mtype])
    | some vec =>
        match resolveLabels vec.labelNames m.labels with
        | none => (reg, [.labelMismatch m.name m.mtype])
        | some key =>
            let vec' : MetricVec := { vec with series := incSeries vec.series key m.value }
            ({ reg with counters := updateA reg.counters m.name vec' }, [])
  else if lowercase m.mtype = "gauge" then
    match lookupA m.name reg.gauges with
    | none => (reg, [.notRegistered m.name m.mtype])
    | some vec =>
        match resolveLabels vec.labelNames m.labels with
        | none => (reg, [.labelMismatch m.name m.mtype])
        | some key =>
            let vec' : MetricVec := { vec with series := setSeries vec.series key m.value }
            ({ reg with gauges := updateA reg.gauges m.name vec' }, [])
  else (reg, [.unknownType m.name m.mtype])

/-- `updata_metrics(metrics)` (src/main.rs lines 154–210): the loop over the
batch, threading the registry state and collecting the emitted log events. -/
def updata_metrics (reg : Registry) : List Metric → Registry × List LogEvent
  | [] => (reg, [])
  | m :: t =>
      let r1 := applyOne reg m
      let r2 := updata_metrics r1.1 t
      (r2.1, r1.2 ++ r2.2)

/-- Lines 117–120 of `load_prom`: collect the label entries (`BTreeMap`
iteration: key order), stably sort them by label *value* (`sort_by` on
`v1.1.cmp(v2.1)`; Rust's stable sort is modelled by stable insertion sort),
then project out the label names. -/
def labelNamesSortedByValue (labels : List (String × String)) : List String :=
  (List.insertionSort valLe labels).map Prod.fst

/-- One iteration of the `for m in metrics` loop of `load_prom`
(src/main.rs lines 116–148): derive the value-sorted label-name list, then
dispatch on the lowercased kind; `register_counter_vec!`/`register_gauge_vec!`
fails when the name is already taken in the default registry (the error is
logged and the measurement skipped), otherwise the new family is inserted into
the corresponding map. Unknown kinds are logged and skipped. -/
def loadPromOne (reg : Registry) (m : Metric) : Registry × List LogEvent :=
  let names := labelNamesSortedByValue m.labels
  if lowercase m.mtype = "counter" then
    if m.name ∈ reg.promNames then (reg, [.registerError m.name])
    else ({ reg with
            counters := updateA reg.counters m.name ⟨names, []⟩,
            promNames := m.name :: reg.promNames }, [])
  else if lowercase m.mtype = "gauge" then
    if m.name ∈ reg.promNames then (reg, [.registerError m.name])
    else ({ reg with
            gauges := updateA reg.gauges m.name ⟨names, []⟩,
            promNames := m.name :: reg.promNames }, [])
  else (reg, [.unknownType m.name m.mtype])

/-- `load_prom(metrics)` (src/main.rs lines 112–151): the loop over the batch
of metric definitions. -/
def load_prom (reg : Registry) : List Metric → Registry × List LogEvent
  | [] => (reg, [])
  | m :: t =>
      let r1 := loadPromOne reg m
      let r2 := load_prom r1.1 t
      (r2.1, r1.2 ++ r2.2)

/-- Current value of a counter series, if the family and series exist. -/
def counterValue (reg : Registry) (n : String) (k : List String) : Option Int :=
  (lookupA n reg.counters).bind fun vec => lookupA k vec.series

/-- Current value of a gauge series, if the family and series exist. -/
def gaugeValue (reg : Registry) (n : String) (k : List String) : Option Int :=
  (lookupA n reg.gauges).bind fun vec => lookupA k vec.series

/-- Number of registered families (counter or gauge) carrying a given name. -/
def familyCount (reg : Registry) (n : String) : Nat :=
  (reg.counters.filter (fun p => p.1 = n)).length +
    (reg.gauges.filter (fun p => p.1 = n)).length

/-- State visible to a scheduler iteration: the registry plus the number of
samples recorded in `UPDATE_HISTOGRAM` and the log so far. -/
structure SchedState where
  reg : Registry
  updateHistogramSamples : Nat
  logs : List LogEvent
deriving DecidableEq, Repr

/-- The body of the scheduler loop (src/main.rs lines 221–234), applied to the
result of one `sio::metrics::get_metrics` call (modelled from the spec as
`Option (List Metric)`: the Measurement Source may fail).  `None` logs
"Skipping scheduled metric update" and leaves everything else untouched;
`Some m` runs `updata_metrics` between `start_timer` and `observe_duration`,
recording one `UPDATE_HISTOGRAM` sample. -/
def schedulerCycle (collectResult : Option (List Metric)) (st : SchedState) :
    SchedState :=
  match collectResult with
  | none => { st with logs := st.logs ++ [.skipCycle] }
  | some ms =>
      let r := updata_metrics st.reg ms
      { reg := r.1,
        updateHistogramSamples := st.updateHistogramSamples + 1,
        logs := st.logs ++ r.2 }

/-- `scheduler(sio, interval)` (src/main.rs lines 213–237): with the zero
interval it returns `None` without spawning anything; otherwise it spawns the
loop whose iterations are `schedulerCycle`.  The interval is in seconds
(`Duration::from_secs`). -/
def scheduler (interval : Nat) :
    Option (Option (List Metric) → SchedState → SchedState) :=
  if interval = 0 then none
  else some schedulerCycle

/-- A finite observation window of the scheduler thread: each element of
`collects` is the result of one `get_metrics` call, consumed by one loop
iteration.  Returns the final state and the number of times the Measurement
Source was invoked by the scheduler (zero when no loop was spawned). -/
def schedulerRun (interval : Nat) (collects : List (Option (List Metric)))
    (st : SchedState) : SchedState × Nat :=
  match scheduler interval with
  | none => (st, 0)
  | some cycle => (collects.foldl (fun s c => cycle c s) st, collects.length)

/-- The observable steps of `main` (src/main.rs lines 240–263), in order. -/
inductive MainAction
  | collectCall
  | registerPass
  | applyPass
  | schedulerStart (spawned : Bool)
  | listenerBind
  | exitProcess (code : Nat)
deriving DecidableEq, Repr

/-- The startup sequence of `main` after configuration is read
(src/main.rs lines 254–262), as a trace of observable steps plus the registry
it leaves behind: one synchronous `get_metrics` call; on `None`,
`process::exit(1)` (so neither `scheduler` nor `start_exporter` runs); on
`Some m`, `load_prom(&m)`, then `scheduler(...)` (spawned iff the interval is
non-zero), then `start_exporter(...)` binds the listener. -/
def mainStartup (collectResult : Option (List Metric)) (interval : Nat) :
    List MainAction × Registry :=
  match collectResult with
  | none => ([.collectCall, .exitProcess 1], Registry.empty)
  | some ms =>
      ([.collectCall, .registerPass, .schedulerStart (interval != 0),
        .listenerBind],
       (load_prom Registry.empty ms).1)

/-- A whole run: the startup pass followed by an observation window of
scheduler iterations.  The final component counts every invocation of the
Measurement Source (the startup `get_metrics` call plus one per executed
scheduler iteration). -/
def systemRun (startupCollect : Option (List Metric)) (interval : Nat)
    (collects : List (Option (List Metric))) :
    List MainAction × SchedState × Nat :=
  match startupCollect with
  | none => ((mainStartup none interval).1, ⟨Registry.empty, 0, []⟩, 1)
  | some ms =>
      let s := mainStartup (some ms) interval
      let r := schedulerRun interval collects ⟨s.2, 0, []⟩
      (s.1, r.1, 1 + r.2)

/-- The self-observability metrics touched by the HTTP handler. -/
structure HttpSelfMetrics where
  httpBodyGauge : Int
  httpReqHistogramSamples : Nat
deriving DecidableEq, Repr

/-- Outcome of `res.send(&buffer)`. -/
inductive SendOutcome
  | ok
  | err (e : String)
deriving DecidableEq, Repr

/-- What one request through the exposition handler produced. -/
structure HandlerOutcome where
  self : HttpSelfMetrics
  contentTypeSet : Bool
  bodySent : Option (List Nat)
  logs : List LogEvent
deriving DecidableEq, Repr

/-- The request handler inside `start_exporter` (src/main.rs lines 86–107),
as a function of the encoder result (the serialized byte buffer, or an error)
and the outcome of the socket write.  On encoder success: start the
`HTTP_REQ_HISTOGRAM` timer, set the content type, send the buffer (a send
error is only logged), observe the timer and set `HTTP_BODY_GAUGE` to the
buffer length.  On encoder failure: log "Encoder problem" and do nothing
else — no content type, no body, no gauge or histogram update. -/
def exporterHandle (enc : Except String (List Nat)) (send : SendOutcome)
    (st : HttpSelfMetrics) : HandlerOutcome :=
  match enc with
  | .error e => { self := st, contentTypeSet := false, bodySent := none,
                  logs := [.encoderProblem e] }
  | .ok buffer =>
      { self := { httpBodyGauge := (buffer.length : Int),
                  httpReqHistogramSamples := st.httpReqHistogramSamples + 1 },
        contentTypeSet := true,
        bodySent := some buffer,
        logs := match send with | .ok => [] | .err e => [.sendError e] }

/-- The `(family name, series key)` a measurement would be routed to by
`applyOne`, if any: the same kind dispatch, family lookup and label
resolution, without the mutation. -/
def routedTo (reg : Registry) (m : Metric) : Option (String × List String) :=
  if lowercase m.mtype = "counter" then
    match lookupA m.name reg.counters with
    | none => none
    | some vec => (resolveLabels vec.labelNames m.labels).map fun k => (m.name, k)
  else if lowercase m.mtype = "gauge" then
    match lookupA m.name reg.gauges with
    | none => none
    | some vec => (resolveLabels vec.labelNames m.labels).map fun k => (m.name, k)
  else none

/-- Batch of measurements sharing name, kind, help and label map, one per
value: the shape used to state the accumulation properties. -/
def mkBatch (n mtype help : String) (ℓ : List (String × String))
    (vs : List Int) : List Metric :=
  vs.map fun v => ⟨n, mtype, help, ℓ, v⟩

/-! ### Association-list lemmas -/

theorem lookupA_updateA {κ α : Type} [DecidableEq κ]
    (l : List (κ × α)) (k k' : κ) (v : α) :
    lookupA k' (updateA l k v) = if k = k' then some v else lookupA k' l := by
  induction l with
  | nil => simp [lookupA, updateA]
  | cons p t ih =>
      obtain ⟨a, b⟩ := p
      by_cases hak : a = k
      · subst hak
        simp only [updateA, if_pos rfl, lookupA]
        by_cases hk' : a = k'
        · simp [hk']
        · simp [hk', lookupA]
      · simp only [updateA, if_neg hak, lookupA, ih]
        by_cases hak' : a = k'
        · subst hak'
          simp [if_neg (show ¬k = a from fun h => hak h.symm)]
        · simp [hak']

theorem lookupA_eq_none_iff {κ α : Type} [DecidableEq κ]
    (l : List (κ × α)) (k : κ) :
    lookupA k l = none ↔ ∀ p ∈ l, p.1 ≠ k := by
  induction l with
  | nil => simp [lookupA]
  | cons p t ih =>
      obtain ⟨a, b⟩ := p
      by_cases hak : a = k
      · subst hak
        simp [lookupA]
      · simp [lookupA, hak, ih]

theorem updateA_of_lookupA_none {κ α : Type} [DecidableEq κ]
    (l : List (κ × α)) (k : κ) (v : α) (h : lookupA k l = none) :
    updateA l k v = l ++ [(k, v)] := by
  induction l with
  | nil => simp [updateA]
  | cons p t ih =>
      obtain ⟨a, b⟩ := p
      simp only [lookupA] at h
      by_cases hak : a = k
      · simp [hak] at h
      · simp only [updateA, if_neg hak, List.cons_append, List.cons.injEq,
          true_and]
        exact ih (by simpa [hak] using h)

/-! ### Unfolding equations for the batch loops -/

theorem updata_metrics_cons (reg : Registry) (m : Metric) (t : List Metric) :
    updata_metrics reg (m :: t) =
      ((updata_metrics (applyOne reg m).1 t).1,
        (applyOne reg m).2 ++ (updata_metrics (applyOne reg m).1 t).2) := rfl

theorem load_prom_cons (reg : Registry) (m : Metric) (t : List Metric) :
    load_prom reg (m :: t) =
      ((load_prom (loadPromOne reg m).1 t).1,
        (loadPromOne reg m).2 ++ (load_prom (loadPromOne reg m).1 t).2) := rfl

/-! ### Branch lemmas for `applyOne` -/

theorem applyOne_counter_none (reg : Registry) (m : Metric)
    (hk : lowercase m.mtype = "counter")
    (h : lookupA m.name reg.counters = none) :
    applyOne reg m = (reg, [.notRegistered m.name m.mtype]) := by
  simp [applyOne, hk, h]

theorem applyOne_gauge_none (reg : Registry) (m : Metric)
    (hk : lowercase m.mtype = "gauge")
    (h : lookupA m.name reg.gauges = none) :
    applyOne reg m = (reg, [.notRegistered m.name m.mtype]) := by
  have hne : lowercase m.mtype ≠ "counter" := by rw [hk]; decide
  simp [applyOne, hk, hne, h]

theorem applyOne_counter_mismatch (reg : Registry) (m : Metric)
    (vec : MetricVec) (hk : lowercase m.mtype = "counter")
    (h : lookupA m.name reg.counters = some vec)
    (hres : resolveLabels vec.labelNames m.labels = none) :
    applyOne reg m = (reg, [.labelMismatch m.name m.mtype]) := by
  simp [applyOne, hk, h, hres]

theorem applyOne_gauge_mismatch (reg : Registry) (m : Metric)
    (vec : MetricVec) (hk : lowercase m.mtype = "gauge")
    (h : lookupA m.name reg.gauges = some vec)
    (hres : resolveLabels vec.labelNames m.labels = none) :
    applyOne reg m = (reg, [.labelMismatch m.name m.mtype]) := by
  have hne : lowercase m.mtype ≠ "counter" := by rw [hk]; decide
  simp [applyOne, hk, hne, h, hres]

theorem applyOne_counter_hit (reg : Registry) (m : Metric)
    (vec : MetricVec) (key : List String)
    (hk : lowercase m.mtype = "counter")
    (h : lookupA m.name reg.counters = some vec)
    (hres : resolveLabels vec.labelNames m.labels = some key) :
    applyOne reg m = ({ reg with counters := updateA reg.counters m.name ({ vec with series := incSeries vec.series key m.value }) }, []) := by
  simp [applyOne, hk, h, hres]

theorem applyOne_gauge_hit (reg : Registry) (m : Metric)
    (vec : MetricVec) (key : List String)
    (hk : lowercase m.mtype = "gauge")
    (h : lookupA m.name reg.gauges = some vec)
    (hres : resolveLabels vec.labelNames m.labels = some key) :
    applyOne reg m = ({ reg with gauges := updateA reg.gauges m.name ({ vec with series := setSeries vec.series key m.value }) }, []) := by
  have hne : lowercase m.mtype ≠ "counter" := by rw [hk]; decide
  simp [applyOne, hk, hne, h, hres]

theorem applyOne_unknown (reg : Registry) (m : Metric)
    (hc : lowercase m.mtype ≠ "counter") (hg : lowercase m.mtype ≠ "gauge") :
    applyOne reg m = (reg, [.unknownType m.name m.mtype]) := by
  simp [applyOne, hc, hg]

/-! ### Branch lemmas for `loadPromOne` -/

theorem loadPromOne_counter_taken (reg : Registry) (m : Metric)
    (hk : lowercase m.mtype = "counter") (hmem : m.name ∈ reg.promNames) :
    loadPromOne reg m = (reg, [.registerError m.name]) := by
  simp [loadPromOne, hk, hmem]

theorem loadPromOne_gauge_taken (reg : Registry) (m : Metric)
    (hk : lowercase m.mtype = "gauge") (hmem : m.name ∈ reg.promNames) :
    loadPromOne reg m = (reg, [.registerError m.name]) := by
  have hne : lowercase m.mtype ≠ "counter" := by rw [hk]; decide
  simp [loadPromOne, hk, hne, hmem]

theorem loadPromOne_counter_new (reg : Registry) (m : Metric)
    (hk : lowercase m.mtype = "counter") (hmem : m.name ∉ reg.promNames) :
    loadPromOne reg m = ({ reg with counters := updateA reg.counters m.name ⟨labelNamesSortedByValue m.labels, []⟩, promNames := m.name :: reg.promNames }, []) := by
  simp [loadPromOne, hk, hmem]

theorem loadPromOne_gauge_new (reg : Registry) (m : Metric)
    (hk : lowercase m.mtype = "gauge") (hmem : m.name ∉ reg.promNames) :
    loadPromOne reg m = ({ reg with gauges := updateA reg.gauges m.name ⟨labelNamesSortedByValue m.labels, []⟩, promNames := m.name :: reg.promNames }, []) := by
  have hne : lowercase m.mtype ≠ "counter" := by rw [hk]; decide
  simp [loadPromOne, hk, hne, hmem]

theorem loadPromOne_unknown (reg : Registry) (m : Metric)
    (hc : lowercase m.mtype ≠ "counter") (hg : lowercase m.mtype ≠ "gauge") :
    loadPromOne reg m = (reg, [.unknownType m.name m.mtype]) := by
  simp [loadPromOne, hc, hg]

/-! ### Shared concrete fixtures for the witnesses -/

/-- The spec's end-to-end example metric definition. -/
def mReq : Metric := ⟨"req_total", "Counter", "requests", [("method", "GET")], 3⟩

/-- A gauge metric definition for the fixtures. -/
def mGau : Metric := ⟨"cap", "Gauge", "capacity", [("a", "1")], 7⟩

/-- A registry seeded with one counter family and one gauge family. -/
def regW : Registry := (load_prom Registry.empty [mReq, mGau]).1

/-! ### C4 -/

/-- C4: for every batch and every measurement whose name has no registered
family of its kind, `updata_metrics` emits the "was not found as registered"
error for that measurement, leaves the registry untouched for it, and keeps
processing the rest of the batch; a label-set mismatch against the family's
fixed label set likewise only skips that single measurement. -/
theorem apply_unregistered_skips (reg : Registry) (m : Metric)
    (ms : List Metric) :
    (lowercase m.mtype = "counter" → lookupA m.name reg.counters = none →
       applyOne reg m = (reg, [.notRegistered m.name m.mtype])) ∧
    (lowercase m.mtype = "gauge" → lookupA m.name reg.gauges = none →
       applyOne reg m = (reg, [.notRegistered m.name m.mtype])) ∧
    (∀ vec, lowercase m.mtype = "counter" →
       lookupA m.name reg.counters = some vec →
       resolveLabels vec.labelNames m.labels = none →
       applyOne reg m = (reg, [.labelMismatch m.name m.mtype])) ∧
    (∀ vec, lowercase m.mtype = "gauge" →
       lookupA m.name reg.gauges = some vec →
       resolveLabels vec.labelNames m.labels = none →
       applyOne reg m = (reg, [.labelMismatch m.name m.mtype])) ∧
    (∀ lg, applyOne reg m = (reg, lg) →
       updata_metrics reg (m :: ms) =
         ((updata_metrics reg ms).1, lg ++ (updata_metrics reg ms).2)) := by
  refine ⟨applyOne_counter_none reg m, applyOne_gauge_none reg m,
    fun vec => applyOne_counter_mismatch reg m vec,
    fun vec => applyOne_gauge_mismatch reg m vec, fun lg h => ?_⟩
  rw [updata_metrics_cons, h]

/-- Witness for C4 at a concrete input: applying an unregistered name to the
seeded registry signals the condition, changes nothing, and the batch goes on
to the next measurement. -/
theorem apply_unregistered_skips_witness :
    applyOne regW ⟨"nope", "counter", "h", [], 5⟩ =
      (regW, [.notRegistered "nope" "counter"]) ∧
    updata_metrics regW [⟨"nope", "counter", "h", [], 5⟩, mGau] =
      ((updata_metrics regW [mGau]).1,
        [.notRegistered "nope" "counter"] ++ (updata_metrics regW [mGau]).2) := by
  have h := apply_unregistered_skips regW ⟨"nope", "counter", "h", [], 5⟩ [mGau]
  have h1 := h.1 (by decide) (by decide)
  exact ⟨h1, by rw [h.2.2.2.2 [.notRegistered "nope" "counter"] h1]⟩

/-! ### C10 -/

/-- The registry effect of `applyOne` depends on the kind string only through
its lowercase form. -/
theorem applyOne_fst_mtype_congr (reg : Registry) (m : Metric) (mt : String)
    (h : lowercase mt = lowercase m.mtype) :
    (applyOne reg { m with mtype := mt }).1 = (applyOne reg m).1 := by
  by_cases hc : lowercase m.mtype = "counter"
  · have hc' : lowercase mt = "counter" := by rw [h, hc]
    cases hl : lookupA m.name reg.counters with
    | none =>
        rw [applyOne_counter_none reg { m with mtype := mt } hc' hl,
          applyOne_counter_none reg m hc hl]
    | some vec =>
        cases hr : resolveLabels vec.labelNames m.labels with
        | none =>
            rw [applyOne_counter_mismatch reg { m with mtype := mt } vec hc' hl hr,
              applyOne_counter_mismatch reg m vec hc hl hr]
        | some key =>
            rw [applyOne_counter_hit reg { m with mtype := mt } vec key hc' hl hr,
              applyOne_counter_hit reg m vec key hc hl hr]
  · by_cases hg : lowercase m.mtype = "gauge"
    · have hg' : lowercase mt = "gauge" := by rw [h, hg]
      cases hl : lookupA m.name reg.gauges with
      | none =>
          rw [applyOne_gauge_none reg { m with mtype := mt } hg' hl,
            applyOne_gauge_none reg m hg hl]
      | some vec =>
          cases hr : resolveLabels vec.labelNames m.labels with
          | none =>
              rw [applyOne_gauge_mismatch reg { m with mtype := mt } vec hg' hl hr,
                applyOne_gauge_mismatch reg m vec hg hl hr]
          | some key =>
              rw [applyOne_gauge_hit reg { m with mtype := mt } vec key hg' hl hr,
                applyOne_gauge_hit reg m vec key hg hl hr]
    · have hc' : lowercase mt ≠ "counter" := by rw [h]; exact hc
      have hg' : lowercase mt ≠ "gauge" := by rw [h]; exact hg
      rw [applyOne_unknown reg { m with mtype := mt } hc' hg',
        applyOne_unknown reg m hc hg]

/-- The registry effect of `loadPromOne` depends on the kind string only
through its lowercase form. -/
theorem loadPromOne_fst_mtype_congr (reg : Registry) (m : Metric) (mt : String)
    (h : lowercase mt = lowercase m.mtype) :
    (loadPromOne reg { m with mtype := mt }).1 = (loadPromOne reg m).1 := by
  by_cases hc : lowercase m.mtype = "counter"
  · have hc' : lowercase mt = "counter" := by rw [h, hc]
    by_cases hmem : m.name ∈ reg.promNames
    · rw [loadPromOne_counter_taken reg { m with mtype := mt } hc' hmem,
        loadPromOne_counter_taken reg m hc hmem]
    · rw [loadPromOne_counter_new reg { m with mtype := mt } hc' hmem,
        loadPromOne_counter_new reg m hc hmem]
  · by_cases hg : lowercase m.mtype = "gauge"
    · have hg' : lowercase mt = "gauge" := by rw [h, hg]
      by_cases hmem : m.name ∈ reg.promNames
      · rw [loadPromOne_gauge_taken reg { m with mtype := mt } hg' hmem,
          loadPromOne_gauge_taken reg m hg hmem]
      · rw [loadPromOne_gauge_new reg { m with mtype := mt } hg' hmem,
          loadPromOne_gauge_new reg m hg hmem]
    · have hc' : lowercase mt ≠ "counter" := by rw [h]; exact hc
      have hg' : lowercase mt ≠ "gauge" := by rw [h]; exact hg
      rw [loadPromOne_unknown reg { m with mtype := mt } hc' hg',
        loadPromOne_unknown reg m hc hg]

/-- C10: kind dispatch is by case-insensitive string comparison in both
`load_prom` and `updata_metrics`: a kind string that lowercases to neither
`"counter"` nor `"gauge"` is logged and skipped by both operations, with the
registry untouched and the rest of the batch still processed; and the registry
effect of either operation is unchanged under any re-casing of the kind
string (anything with the same lowercase form). -/
theorem kind_dispatch_case_insensitive (reg : Registry) (m : Metric)
    (ms : List Metric) :
    (lowercase m.mtype ≠ "counter" → lowercase m.mtype ≠ "gauge" →
       applyOne reg m = (reg, [.unknownType m.name m.mtype]) ∧
       loadPromOne reg m = (reg, [.unknownType m.name m.mtype]) ∧
       (updata_metrics reg (m :: ms)).1 = (updata_metrics reg ms).1 ∧
       (load_prom reg (m :: ms)).1 = (load_prom reg ms).1) ∧
    (∀ mt : String, lowercase mt = lowercase m.mtype →
       (applyOne reg { m with mtype := mt }).1 = (applyOne reg m).1 ∧
       (loadPromOne reg { m with mtype := mt }).1 = (loadPromOne reg m).1) := by
  constructor
  · intro hc hg
    refine ⟨applyOne_unknown reg m hc hg, loadPromOne_unknown reg m hc hg, ?_, ?_⟩
    · rw [updata_metrics_cons, applyOne_unknown reg m hc hg]
    · rw [load_prom_cons, loadPromOne_unknown reg m hc hg]
  · exact fun mt h =>
      ⟨applyOne_fst_mtype_congr reg m mt h, loadPromOne_fst_mtype_congr reg m mt h⟩

/-- Witness for C10 at concrete inputs: a `"histogram"` kind is skipped by
both operations with the registry untouched, and `"CoUnTeR"` routes exactly
like `"counter"`. -/
theorem kind_dispatch_case_insensitive_witness :
    (applyOne regW ⟨"req_total", "histogram", "h", [], 5⟩ =
       (regW, [.unknownType "req_total" "histogram"]) ∧
     loadPromOne regW ⟨"req_total", "histogram", "h", [], 5⟩ =
       (regW, [.unknownType "req_total" "histogram"]) ∧
     (updata_metrics regW [⟨"req_total", "histogram", "h", [], 5⟩, mGau]).1 =
       (updata_metrics regW [mGau]).1 ∧
     (load_prom regW [⟨"req_total", "histogram", "h", [], 5⟩, mGau]).1 =
       (load_prom regW [mGau]).1) ∧
    (applyOne regW ⟨"req_total", "CoUnTeR", "h", [("method", "GET")], 2⟩).1 =
      (applyOne regW ⟨"req_total", "counter", "h", [("method", "GET")], 2⟩).1 := by
  have h := kind_dispatch_case_insensitive regW
    ⟨"req_total", "counter", "h", [("method", "GET")], 2⟩ [mGau]
  have h10 := kind_dispatch_case_insensitive regW
    ⟨"req_total", "histogram", "h", [], 5⟩ [mGau]
  exact ⟨h10.1 (by decide) (by decide), (h.2 "CoUnTeR" (by decide)).1⟩

/-! ### C1 -/

/-- Value of the single series an `applyOne` counter hit produces. -/
theorem counterValue_applyOne_hit (reg : Registry) (m : Metric)
    (vec : MetricVec) (key : List String)
    (hk : lowercase m.mtype = "counter")
    (hvec : lookupA m.name reg.counters = some vec)
    (hres : resolveLabels vec.labelNames m.labels = some key) :
    lookupA m.name (applyOne reg m).1.counters =
      some ({ vec with series := incSeries vec.series key m.value }) ∧
    counterValue (applyOne reg m).1 m.name key =
      some ((lookupA key vec.series).getD 0 + m.value) := by
  rw [applyOne_counter_hit reg m vec key hk hvec hres]
  constructor
  · simp [lookupA_updateA]
  · simp [counterValue, lookupA_updateA, incSeries]

/-- Value of the single series an `applyOne` gauge hit produces. -/
theorem gaugeValue_applyOne_hit (reg : Registry) (m : Metric)
    (vec : MetricVec) (key : List String)
    (hk : lowercase m.mtype = "gauge")
    (hvec : lookupA m.name reg.gauges = some vec)
    (hres : resolveLabels vec.labelNames m.labels = some key) :
    lookupA m.name (applyOne reg m).1.gauges =
      some ({ vec with series := setSeries vec.series key m.value }) ∧
    gaugeValue (applyOne reg m).1 m.name key = some m.value := by
  rw [applyOne_gauge_hit reg m vec key hk hvec hres]
  constructor
  · simp [lookupA_updateA]
  · simp [gaugeValue, lookupA_updateA, setSeries]

/-- Applying a batch of counter measurements for one series accumulates the
sum of the reported values onto the series' prior content (0 at creation). -/
theorem counter_batch_sum (n mtype help : String) (ℓ : List (String × String))
    (key : List String) (hk : lowercase mtype = "counter") :
    ∀ (vs : List Int) (reg : Registry) (vec : MetricVec),
      lookupA n reg.counters = some vec →
      resolveLabels vec.labelNames ℓ = some key → vs ≠ [] →
      counterValue (updata_metrics reg (mkBatch n mtype help ℓ vs)).1 n key =
        some ((counterValue reg n key).getD 0 + vs.sum) := by
  intro vs
  induction vs with
  | nil => intro reg vec _ _ hne; exact absurd rfl hne
  | cons v vs' ih =>
      intro reg vec hvec hres _
      have hhit := counterValue_applyOne_hit reg ⟨n, mtype, help, ℓ, v⟩ vec key
        hk hvec hres
      have hcv : counterValue reg n key = lookupA key vec.series := by
        simp [counterValue, hvec]
      have hbatch : mkBatch n mtype help ℓ (v :: vs') =
          (⟨n, mtype, help, ℓ, v⟩ : Metric) :: mkBatch n mtype help ℓ vs' := rfl
      rw [hbatch, updata_metrics_cons]
      by_cases hvs' : vs' = []
      · subst hvs'
        simp only [mkBatch, List.map_nil, updata_metrics]
        rw [hhit.2, hcv]
        simp [add_assoc]
      · rw [ih (applyOne reg ⟨n, mtype, help, ℓ, v⟩).1
          ({ vec with series := incSeries vec.series key v }) hhit.1 hres hvs']
        rw [hhit.2, hcv]
        simp [incSeries, lookupA_updateA, add_assoc]

/-- Applying a batch of gauge measurements for one series overwrites it each
time: only the last reported value remains. -/
theorem gauge_batch_last (n mtype help : String) (ℓ : List (String × String))
    (key : List String) (hk : lowercase mtype = "gauge") :
    ∀ (vs : List Int) (reg : Registry) (vec : MetricVec),
      lookupA n reg.gauges = some vec →
      resolveLabels vec.labelNames ℓ = some key → vs ≠ [] →
      gaugeValue (updata_metrics reg (mkBatch n mtype help ℓ vs)).1 n key =
        vs.getLast? := by
  intro vs
  induction vs with
  | nil => intro reg vec _ _ hne; exact absurd rfl hne
  | cons v vs' ih =>
      intro reg vec hvec hres _
      have hhit := gaugeValue_applyOne_hit reg ⟨n, mtype, help, ℓ, v⟩ vec key
        hk hvec hres
      have hbatch : mkBatch n mtype help ℓ (v :: vs') =
          (⟨n, mtype, help, ℓ, v⟩ : Metric) :: mkBatch n mtype help ℓ vs' := rfl
      rw [hbatch, updata_metrics_cons]
      by_cases hvs' : vs' = []
      · subst hvs'
        simp only [mkBatch, List.map_nil, updata_metrics]
        rw [hhit.2]
        rfl
      · rw [ih (applyOne reg ⟨n, mtype, help, ℓ, v⟩).1
          ({ vec with series := setSeries vec.series key v }) hhit.1 hres hvs']
        obtain ⟨b, t, rfl⟩ := List.exists_cons_of_ne_nil hvs'
        simp [List.getLast?_cons_cons]

/-- C1: a measurement routed by `updata_metrics` to a Counter family
increments the matching series by its value, and to a Gauge family sets the
series to its value; hence applying `v1..vn` to one Counter series yields the
series' prior content (0 at creation) plus `Σ vi`, while the same sequence on
a Gauge series yields exactly `vn`, independent of prior values. -/
theorem counter_increments_gauge_sets (reg : Registry)
    (n mtype help : String) (ℓ : List (String × String)) (vs : List Int)
    (vec : MetricVec) (key : List String) :
    (lowercase mtype = "counter" → lookupA n reg.counters = some vec →
       resolveLabels vec.labelNames ℓ = some key → vs ≠ [] →
       counterValue (updata_metrics reg (mkBatch n mtype help ℓ vs)).1 n key =
         some ((counterValue reg n key).getD 0 + vs.sum)) ∧
    (lowercase mtype = "gauge" → lookupA n reg.gauges = some vec →
       resolveLabels vec.labelNames ℓ = some key → vs ≠ [] →
       gaugeValue (updata_metrics reg (mkBatch n mtype help ℓ vs)).1 n key =
         vs.getLast?) :=
  ⟨fun hk hvec hres hne =>
      counter_batch_sum n mtype help ℓ key hk vs reg vec hvec hres hne,
   fun hk hvec hres hne =>
      gauge_batch_last n mtype help ℓ key hk vs reg vec hvec hres hne⟩

/-- Witness for C1 at the spec's end-to-end example: counter values 3 then 2
sum to 5 on a fresh series, and gauge values 7 then 9 leave 9. -/
theorem counter_increments_gauge_sets_witness :
    counterValue (updata_metrics regW
        (mkBatch "req_total" "Counter" "h" [("method", "GET")] [3, 2])).1
      "req_total" ["GET"] =
      some ((counterValue regW "req_total" ["GET"]).getD 0 + [3, 2].sum) ∧
    gaugeValue (updata_metrics regW
        (mkBatch "cap" "Gauge" "h" [("a", "1")] [7, 9])).1 "cap" ["1"] =
      ([7, 9] : List Int).getLast? :=
  ⟨(counter_increments_gauge_sets regW "req_total" "Counter" "h"
      [("method", "GET")] [3, 2] ⟨["method"], []⟩ ["GET"]).1
      (by decide) (by decide) (by decide) (by decide),
   (counter_increments_gauge_sets regW "cap" "Gauge" "h"
      [("a", "1")] [7, 9] ⟨["a"], []⟩ ["1"]).2
      (by decide) (by decide) (by decide) (by decide)⟩

/-! ### C8 -/

/-- C8: `applyOne` only mutates the single series its measurement is routed
to — every series (in any family, of either kind) other than the routed one
keeps its value, including every other label-value combination within the
same family. -/
theorem apply_label_isolation (reg : Registry) (m : Metric) (n : String)
    (k : List String) (h : routedTo reg m ≠ some (n, k)) :
    counterValue (applyOne reg m).1 n k = counterValue reg n k ∧
    gaugeValue (applyOne reg m).1 n k = gaugeValue reg n k := by
  by_cases hc : lowercase m.mtype = "counter"
  · cases hl : lookupA m.name reg.counters with
    | none => rw [applyOne_counter_none reg m hc hl]; exact ⟨rfl, rfl⟩
    | some vec =>
        cases hr : resolveLabels vec.labelNames m.labels with
        | none => rw [applyOne_counter_mismatch reg m vec hc hl hr]; exact ⟨rfl, rfl⟩
        | some key =>
            simp [routedTo, hc, hl, hr] at h
            rw [applyOne_counter_hit reg m vec key hc hl hr]
            refine ⟨?_, rfl⟩
            by_cases hn : m.name = n
            · subst hn
              have hkk : key ≠ k := fun hkk => h (by subst hkk; rfl) (by subst hkk; rfl)
              simp [counterValue, lookupA_updateA, hl, incSeries, hkk]
            · simp [counterValue, lookupA_updateA, hn]
  · by_cases hg : lowercase m.mtype = "gauge"
    · cases hl : lookupA m.name reg.gauges with
      | none => rw [applyOne_gauge_none reg m hg hl]; exact ⟨rfl, rfl⟩
      | some vec =>
          cases hr : resolveLabels vec.labelNames m.labels with
          | none => rw [applyOne_gauge_mismatch reg m vec hg hl hr]; exact ⟨rfl, rfl⟩
          | some key =>
              simp [routedTo, hc, hg, hl, hr] at h
              rw [applyOne_gauge_hit reg m vec key hg hl hr]
              refine ⟨rfl, ?_⟩
              by_cases hn : m.name = n
              · subst hn
                have hkk : key ≠ k := fun hkk => h (by subst hkk; rfl) (by subst hkk; rfl)
                simp [gaugeValue, lookupA_updateA, hl, setSeries, hkk]
              · simp [gaugeValue, lookupA_updateA, hn]
    · rw [applyOne_unknown reg m hc hg]; exact ⟨rfl, rfl⟩

/-- A registry with two series per family, for the isolation witness. -/
def regIso : Registry :=
  ⟨[("req_total", ⟨["method"], [(["GET"], 5), (["POST"], 7)]⟩)],
   [("cap", ⟨["a"], [(["1"], 4), (["2"], 6)]⟩)],
   ["req_total", "cap"]⟩

/-- Witness for C8 at a concrete input: applying `{a=1}` to the gauge family
leaves the `{a=2}` series (and a counter series in another family)
unchanged. -/
theorem apply_label_isolation_witness :
    gaugeValue (applyOne regIso ⟨"cap", "gauge", "h", [("a", "1")], 9⟩).1
        "cap" ["2"] = gaugeValue regIso "cap" ["2"] ∧
    counterValue (applyOne regIso ⟨"cap", "gauge", "h", [("a", "1")], 9⟩).1
        "req_total" ["GET"] = counterValue regIso "req_total" ["GET"] :=
  ⟨(apply_label_isolation regIso ⟨"cap", "gauge", "h", [("a", "1")], 9⟩
      "cap" ["2"] (by decide)).2,
   (apply_label_isolation regIso ⟨"cap", "gauge", "h", [("a", "1")], 9⟩
      "req_total" ["GET"] (by decide)).1⟩

/-! ### C3 -/

/-- Entries whose key is unbound contribute nothing to a name filter. -/
theorem filter_name_eq_nil {α : Type} (l : List (String × α)) (n : String)
    (h : lookupA n l = none) : l.filter (fun p => p.1 = n) = [] := by
  rw [List.filter_eq_nil_iff]
  intro p hp
  simpa using (lookupA_eq_none_iff l n).1 h p hp

/-- C3: `load_prom` is idempotent per metric name.  From a state where the
name is fresh, one registration produces exactly one family; registering the
same definition again leaves the registry unchanged and only logs the failed
re-registration; and a batch headed by the duplicate still processes the
remaining measurements. -/
theorem register_idempotent_per_name (reg0 : Registry) (m : Metric)
    (hfresh : m.name ∉ reg0.promNames)
    (hkind : lowercase m.mtype = "counter" ∨ lowercase m.mtype = "gauge")
    (hc : lookupA m.name reg0.counters = none)
    (hg : lookupA m.name reg0.gauges = none) :
    familyCount (load_prom reg0 [m]).1 m.name = 1 ∧
    load_prom (load_prom reg0 [m]).1 [m] =
      ((load_prom reg0 [m]).1, [.registerError m.name]) ∧
    (∀ ms, (load_prom (load_prom reg0 [m]).1 (m :: ms)).1 =
       (load_prom (load_prom reg0 [m]).1 ms).1) := by
  have hcf := filter_name_eq_nil reg0.counters m.name hc
  have hgf := filter_name_eq_nil reg0.gauges m.name hg
  have hone : load_prom reg0 [m] = ((loadPromOne reg0 m).1, (loadPromOne reg0 m).2 ++ []) := rfl
  rcases hkind with hk | hk
  · rw [loadPromOne_counter_new reg0 m hk hfresh] at hone
    have hmem : m.name ∈ (load_prom reg0 [m]).1.promNames := by
      rw [hone]; exact List.mem_cons_self _ _
    have htaken := loadPromOne_counter_taken (load_prom reg0 [m]).1 m hk hmem
    refine ⟨?_, ?_, fun ms => ?_⟩
    · rw [hone]
      simp only [familyCount, updateA_of_lookupA_none reg0.counters m.name _ hc,
        List.filter_append, hcf, hgf]
      simp
    · rw [load_prom_cons, htaken]
      rfl
    · rw [load_prom_cons, htaken]
  · rw [loadPromOne_gauge_new reg0 m hk hfresh] at hone
    have hmem : m.name ∈ (load_prom reg0 [m]).1.promNames := by
      rw [hone]; exact List.mem_cons_self _ _
    have htaken := loadPromOne_gauge_taken (load_prom reg0 [m]).1 m hk hmem
    refine ⟨?_, ?_, fun ms => ?_⟩
    · rw [hone]
      simp only [familyCount, updateA_of_lookupA_none reg0.gauges m.name _ hg,
        List.filter_append, hcf, hgf]
      simp
    · rw [load_prom_cons, htaken]
      rfl
    · rw [load_prom_cons, htaken]

/-- Witness for C3 at a concrete input: registering the example counter twice
from the empty registry yields one family, a no-op second call with the
logged failure, and the duplicate does not stop a following registration. -/
theorem register_idempotent_per_name_witness :
    familyCount (load_prom Registry.empty [mReq]).1 "req_total" = 1 ∧
    load_prom (load_prom Registry.empty [mReq]).1 [mReq] =
      ((load_prom Registry.empty [mReq]).1, [.registerError "req_total"]) ∧
    (load_prom (load_prom Registry.empty [mReq]).1 [mReq, mGau]).1 =
      (load_prom (load_prom Registry.empty [mReq]).1 [mGau]).1 := by
  have h := register_idempotent_per_name Registry.empty mReq
    (by decide) (Or.inl (by decide)) (by decide) (by decide)
  exact ⟨h.1, h.2.1, h.2.2 [mGau]⟩

/-! ### C7 -/

theorem charsLe_total : ∀ a b : List Char, charsLe a b = true ∨ charsLe b a = true
  | [], _ => Or.inl rfl
  | _ :: _, [] => Or.inr rfl
  | a :: as, b :: bs => by
      rcases Nat.lt_trichotomy a.toNat b.toNat with h | h | h
      · left; simp [charsLe, h]
      · rcases charsLe_total as bs with ih | ih
        · left; simp [charsLe, h, Nat.lt_irrefl, ih]
        · right
          simp only [charsLe, h, Nat.lt_irrefl, if_false]
          simpa using ih
      · right; simp [charsLe, h]

theorem charsLe_trans : ∀ a b c : List Char,
    charsLe a b = true → charsLe b c = true → charsLe a c = true
  | [], _, _, _, _ => rfl
  | _ :: _, [], _, h, _ => by simp [charsLe] at h
  | _ :: _, _ :: _, [], _, h => by simp [charsLe] at h
  | a :: as, b :: bs, c :: cs, h1, h2 => by
      simp only [charsLe] at h1 h2 ⊢
      rcases Nat.lt_trichotomy a.toNat b.toNat with hab | hab | hab
      · rcases Nat.lt_trichotomy b.toNat c.toNat with hbc | hbc | hbc
        · simp [show a.toNat < c.toNat by omega]
        · simp [show a.toNat < c.toNat by omega]
        · rw [if_neg (by omega), if_pos hbc] at h2
          cases h2
      · rcases Nat.lt_trichotomy b.toNat c.toNat with hbc | hbc | hbc
        · simp [show a.toNat < c.toNat by omega]
        · rw [if_neg (by omega), if_neg (by omega)] at h1
          rw [if_neg (by omega), if_neg (by omega)] at h2
          rw [if_neg (by omega), if_neg (by omega)]
          exact charsLe_trans as bs cs h1 h2
        · rw [if_neg (by omega), if_pos hbc] at h2
          cases h2
      · rw [if_neg (by omega), if_pos hab] at h1
        cases h1

instance : IsTrans (String × String) valLe :=
  ⟨fun a b c h1 h2 => charsLe_trans a.2.data b.2.data c.2.data h1 h2⟩

instance : IsTotal (String × String) valLe :=
  ⟨fun a b => charsLe_total a.2.data b.2.data⟩

/-- C7: the label-name ordering `load_prom` registers a family with is
obtained by sorting the measurement's label entries by label *value*
(a stable sort, so the result is a deterministic function of the label map)
and projecting out the label names; concretely, entries `a=2, b=1` register
the name order `[b, a]` (value order), not the name order `[a, b]`. -/
theorem label_order_sorted_by_value (ℓ : List (String × String)) :
    (∃ ℓ' : List (String × String),
       List.Perm ℓ' ℓ ∧ List.Sorted valLe ℓ' ∧
       labelNamesSortedByValue ℓ = ℓ'.map Prod.fst) ∧
    labelNamesSortedByValue [("a", "2"), ("b", "1")] = ["b", "a"] :=
  ⟨⟨List.insertionSort valLe ℓ, List.perm_insertionSort valLe ℓ,
     List.sorted_insertionSort valLe ℓ, rfl⟩, by decide⟩

/-! ### C6 -/

/-- C6: with a non-zero interval the scheduler loop is spawned, and in every
iteration a failed collection only logs the skip — the registry and the
update-duration histogram are untouched, `updata_metrics` is not called —
while a successful collection applies the batch and records exactly one
histogram sample. -/
theorem scheduler_cycle_semantics (st : SchedState) (interval : Nat) :
    (interval ≠ 0 → scheduler interval = some schedulerCycle) ∧
    (schedulerCycle none st).reg = st.reg ∧
    (schedulerCycle none st).updateHistogramSamples =
      st.updateHistogramSamples ∧
    (schedulerCycle none st).logs = st.logs ++ [.skipCycle] ∧
    (∀ ms, (schedulerCycle (some ms) st).reg = (updata_metrics st.reg ms).1 ∧
       (schedulerCycle (some ms) st).updateHistogramSamples =
         st.updateHistogramSamples + 1 ∧
       (schedulerCycle (some ms) st).logs =
         st.logs ++ (updata_metrics st.reg ms).2) := by
  refine ⟨fun h => ?_, rfl, rfl, rfl, fun ms => ⟨rfl, rfl, rfl⟩⟩
  simp [scheduler, h]

/-- Witness for C6 at a concrete input: interval 30, a failing collection and
a successful one over the seeded registry. -/
theorem scheduler_cycle_semantics_witness :
    scheduler 30 = some schedulerCycle ∧
    (schedulerCycle none ⟨regW, 0, []⟩).reg = regW ∧
    (schedulerCycle (some [mReq]) ⟨regW, 0, []⟩).updateHistogramSamples = 1 :=
  ⟨(scheduler_cycle_semantics ⟨regW, 0, []⟩ 30).1 (by decide),
   (scheduler_cycle_semantics ⟨regW, 0, []⟩ 30).2.1,
   ((scheduler_cycle_semantics ⟨regW, 0, []⟩ 30).2.2.2.2 [mReq]).2.1⟩

/-! ### C5 -/

/-- C5: with the zero interval, `scheduler` spawns nothing (`None`), an
observation window of the scheduler executes no iteration, and over a whole
run the Measurement Source is invoked exactly once — by the startup pass. -/
theorem zero_interval_collects_once (collects : List (Option (List Metric)))
    (st : SchedState) (ms : List Metric) :
    scheduler 0 = none ∧
    schedulerRun 0 collects st = (st, 0) ∧
    (systemRun (some ms) 0 collects).2.2 = 1 := by
  refine ⟨rfl, rfl, ?_⟩
  simp [systemRun, schedulerRun, scheduler]

/-! ### C2 -/

/-- Counterexample to C2 as stated: on a successful initial collection the
startup sequence contains no apply pass at all — `main` only calls
`load_prom` (register) before starting the scheduler and binding the
listener, never `updata_metrics`. -/
theorem startup_no_apply_counterexample :
    MainAction.applyPass ∉ (mainStartup (some [mReq]) 30).1 := by decide

/-- C2 (amended): at startup the process performs one synchronous collect and
register pass — with no apply — before starting the Scheduler or binding the
HTTP listener, and if the initial collection fails it exits with status 1
without starting the Scheduler or binding the listener. -/
theorem startup_register_then_serve (cr : Option (List Metric))
    (interval : Nat) :
    (cr = none →
       (mainStartup cr interval).1 = [.collectCall, .exitProcess 1] ∧
       MainAction.listenerBind ∉ (mainStartup cr interval).1 ∧
       (∀ b, MainAction.schedulerStart b ∉ (mainStartup cr interval).1)) ∧
    (∀ ms, cr = some ms →
       (mainStartup cr interval).1 =
         [.collectCall, .registerPass, .schedulerStart (interval != 0),
          .listenerBind] ∧
       (mainStartup cr interval).2 = (load_prom Registry.empty ms).1 ∧
       MainAction.applyPass ∉ (mainStartup cr interval).1 ∧
       (∀ c, MainAction.exitProcess c ∉ (mainStartup cr interval).1)) := by
  constructor
  · rintro rfl
    exact ⟨rfl, by simp [mainStartup], fun b => by simp [mainStartup]⟩
  · rintro ms rfl
    refine ⟨rfl, rfl, by simp [mainStartup], fun c => ?_⟩
    simp [mainStartup]

/-- Witness for the amended C2 at concrete inputs: both the failing and the
succeeding startup collection. -/
theorem startup_register_then_serve_witness :
    ((mainStartup none 30).1 = [.collectCall, .exitProcess 1] ∧
     MainAction.listenerBind ∉ (mainStartup none 30).1) ∧
    ((mainStartup (some [mReq]) 30).1 =
       [.collectCall, .registerPass, .schedulerStart true, .listenerBind] ∧
     (mainStartup (some [mReq]) 30).2 = (load_prom Registry.empty [mReq]).1) := by
  have h0 := (startup_register_then_serve none 30).1 rfl
  have h1 := (startup_register_then_serve (some [mReq]) 30).2 [mReq] rfl
  exact ⟨⟨h0.1, h0.2.1⟩, ⟨h1.1, h1.2.1⟩⟩

/-! ### C9 -/

/-- C9: on serialization success the exposition handler sets the content
type, sends the encoded body, sets the body-size gauge to the byte length and
records one request-latency histogram sample (a send failure is only logged);
on serialization failure it logs the encoder error and the request completes
with no body, no content type, and both self-observability metrics
untouched. -/
theorem exposition_handler_semantics (st : HttpSelfMetrics)
    (send : SendOutcome) :
    (∀ buffer,
       (exporterHandle (.ok buffer) send st).contentTypeSet = true ∧
       (exporterHandle (.ok buffer) send st).bodySent = some buffer ∧
       (exporterHandle (.ok buffer) send st).self.httpBodyGauge =
         (buffer.length : Int) ∧
       (exporterHandle (.ok buffer) send st).self.httpReqHistogramSamples =
         st.httpReqHistogramSamples + 1 ∧
       (exporterHandle (.ok buffer) send st).logs =
         (match send with | .ok => [] | .err e => [.sendError e])) ∧
    (∀ e,
       (exporterHandle (.error e) send st).self = st ∧
       (exporterHandle (.error e) send st).contentTypeSet = false ∧
       (exporterHandle (.error e) send st).bodySent = none ∧
       (exporterHandle (.error e) send st).logs = [.encoderProblem e]) :=
  ⟨fun _ => ⟨rfl, rfl, rfl, rfl, rfl⟩, fun _ => ⟨rfl, rfl, rfl, rfl⟩⟩

end SioProm
